import Mathlib

/-!
Verification development for the stocks/crypto portfolio dashboard.

The numerical core of the repository is embedded shallowly:

* pandas float columns become lists of rationals; a NaN cell becomes none
  in an Option-valued column, and the pandas rule that a rolling window
  yields NaN until the window is filled becomes an explicit range check;
* the rolling mean and rolling sample standard deviation (ddof = 1) of
  calculate_indicators are translated from src/crypto_analyzer.py lines
  55-84 and src/stock_analyzer.py lines 135-164; the square root inside
  the standard deviation is kept abstract as a parameter sq, about which
  theorems assume only that it is nonnegative on nonnegative inputs;
* the RSI pipeline reproduces the pandas semantics of the source exactly:
  close.diff() puts NaN at index 0, delta.where(delta > 0, 0) turns that
  NaN into 0, and the division gain/loss maps x/0 with x positive to
  infinity (so RSI becomes exactly 100) and 0/0 to NaN (RSI undefined);
* the portfolio aggregation loops of src/pages/crypto.py lines 38-72,
  src/pages/stocks.py lines 26-60 and src/app.py lines 102-171 become
  folds over a list of (holding, optional fetched price) pairs, where
  none stands for a failed or missing price fetch;
* the per-holding percentage of the pages divides a numpy float64 scalar
  (the last Close read via Series.iloc), so a zero denominator yields a
  non-finite float rather than raising; the Float64 type carries finite
  rationals alongside inf, -inf and nan to model this, while the guarded
  divisions in the source stay total functions over the rationals;
* the exchange-rate fetch of src/stock_analyzer.py lines 28-54 becomes a
  function of the two provider outcomes, with Except modelling the try
  block body and the catch-all handler folded into a total function;
* the ticker-key computations of src/crypto_analyzer.py lines 30-38 and
  86-91 are translated with hand-rolled substring and suffix tests on
  character lists, mirroring the Python in and endswith operators.
-/

namespace Analyzer

/-! Rolling-window machinery, from the pandas calls in calculate_indicators. -/

/-- Trailing window of width w ending at index i, as pandas rolling uses it. -/
def window (xs : List ℚ) (i w : Nat) : List ℚ := (xs.take (i + 1)).drop (i + 1 - w)

/-- df[col].rolling(window = w).mean() at index i: defined only once the
window is filled (pandas default min_periods = window) and i is in range. -/
def rollingMean (w : Nat) (xs : List ℚ) (i : Nat) : Option ℚ :=
  if w ≤ i + 1 ∧ i < xs.length then some ((window xs i w).sum / (w : ℚ)) else none

/-- df[col].rolling(window = w).std() at index i, before the square root:
the sample variance with ddof = 1, as pandas computes it. -/
def rollingVar (w : Nat) (xs : List ℚ) (i : Nat) : Option ℚ :=
  if w ≤ i + 1 ∧ i < xs.length then
    some (((window xs i w).map (fun x =>
      (x - (window xs i w).sum / (w : ℚ)) * (x - (window xs i w).sum / (w : ℚ)))).sum
        / ((w : ℚ) - 1))
  else none

/-- Helper for diffs: successive differences given the previous value. -/
def diffsFrom (prev : ℚ) : List ℚ → List ℚ
  | [] => []
  | y :: ys => (y - prev) :: diffsFrom y ys

/-- close.diff() followed by .where(cond, 0): the NaN that pandas puts at
index 0 is compared as False by where and therefore replaced by 0, so the
first entry is 0 and the rest are close-to-close deltas. -/
def diffs : List ℚ → List ℚ
  | [] => []
  | x :: xs => 0 :: diffsFrom x xs

/-- delta.where(delta > 0, 0): positive deltas, other entries 0. -/
def gains (close : List ℚ) : List ℚ := (diffs close).map (fun d => if 0 < d then d else 0)

/-- (-delta.where(delta < 0, 0)): absolute values of negative deltas, other entries 0. -/
def losses (close : List ℚ) : List ℚ := (diffs close).map (fun d => if d < 0 then -d else 0)

/-- df[Close].rolling(window = 20).mean(), the MA20 column. -/
def MA20 (close : List ℚ) (i : Nat) : Option ℚ := rollingMean 20 close i

/-- The 20-bar sample variance feeding the Bollinger standard deviation. -/
def BB_var (close : List ℚ) (i : Nat) : Option ℚ := rollingVar 20 close i

/-- BB_upper = MA20 + (std * 2); sq abstracts the square root applied to
the rolling variance. -/
def BB_upper (sq : ℚ → ℚ) (close : List ℚ) (i : Nat) : Option ℚ :=
  (MA20 close i).bind (fun m => (BB_var close i).map (fun v => m + sq v * 2))

/-- BB_lower = MA20 - (std * 2). -/
def BB_lower (sq : ℚ → ℚ) (close : List ℚ) (i : Nat) : Option ℚ :=
  (MA20 close i).bind (fun m => (BB_var close i).map (fun v => m - sq v * 2))

/-- df[Volume].rolling(window = 20).mean(), the Volume_MA20 column. -/
def Volume_MA20 (volume : List ℚ) (i : Nat) : Option ℚ := rollingMean 20 volume i

/-- RSI = 100 - 100/(1 + rs) with rs = gain/loss, keeping the pandas float
semantics: gain/0 with gain positive is infinity, so RSI is exactly 100;
0/0 is NaN, so RSI is undefined; otherwise the formula applies. -/
def RSI (close : List ℚ) (i : Nat) : Option ℚ :=
  (rollingMean 14 (gains close) i).bind (fun g =>
    (rollingMean 14 (losses close) i).bind (fun l =>
      if l = 0 then (if g = 0 then none else some 100)
      else some (100 - 100 / (1 + g / l))))

/-- A strictly increasing 14-bar close series used as a concrete input. -/
def upSeries : List ℚ := [0, 1, 2, 3, 4, 5, 6, 7, 8, 9, 10, 11, 12, 13]

/-! Helper lemmas about the rolling machinery. -/

lemma rollingMean_none_of (w : Nat) (xs : List ℚ) (i : Nat)
    (h : ¬(w ≤ i + 1 ∧ i < xs.length)) : rollingMean w xs i = none := by
  unfold rollingMean
  exact if_neg h

lemma rollingMean_some_of (w : Nat) (xs : List ℚ) (i : Nat)
    (h1 : w ≤ i + 1) (h2 : i < xs.length) : ∃ g, rollingMean w xs i = some g := by
  unfold rollingMean
  rw [if_pos ⟨h1, h2⟩]
  exact ⟨_, rfl⟩

lemma rollingVar_some_of (w : Nat) (xs : List ℚ) (i : Nat)
    (h1 : w ≤ i + 1) (h2 : i < xs.length) : ∃ v, rollingVar w xs i = some v := by
  unfold rollingVar
  rw [if_pos ⟨h1, h2⟩]
  exact ⟨_, rfl⟩

lemma window_subset (xs : List ℚ) (i w : Nat) : window xs i w ⊆ xs :=
  fun _ hx => List.take_subset _ _ (List.drop_subset _ _ hx)

lemma rollingMean_nonneg (w : Nat) (xs : List ℚ) (i : Nat) (g : ℚ)
    (hxs : ∀ x ∈ xs, 0 ≤ x) (h : rollingMean w xs i = some g) : 0 ≤ g := by
  unfold rollingMean at h
  split at h
  · have hsum : 0 ≤ (window xs i w).sum :=
      List.sum_nonneg (fun x hx => hxs x (window_subset xs i w hx))
    have hw : (0 : ℚ) ≤ (w : ℚ) := by positivity
    injection h with h
    rw [← h]
    exact div_nonneg hsum hw
  · exact absurd h (by simp)

lemma rollingVar_nonneg (w : Nat) (xs : List ℚ) (i : Nat) (v : ℚ)
    (hw : 1 ≤ w) (h : rollingVar w xs i = some v) : 0 ≤ v := by
  unfold rollingVar at h
  split at h
  · have hsum : 0 ≤ ((window xs i w).map (fun x =>
        (x - (window xs i w).sum / (w : ℚ)) * (x - (window xs i w).sum / (w : ℚ)))).sum := by
      refine List.sum_nonneg ?_
      intro x hx
      obtain ⟨y, _, rfl⟩ := List.mem_map.mp hx
      exact mul_self_nonneg _
    have hden : (0 : ℚ) ≤ (w : ℚ) - 1 := by
      have : (1 : ℚ) ≤ (w : ℚ) := by exact_mod_cast hw
      linarith
    injection h with h
    rw [← h]
    exact div_nonneg hsum hden
  · exact absurd h (by simp)

lemma gains_mem_nonneg (close : List ℚ) : ∀ x ∈ gains close, 0 ≤ x := by
  intro x hx
  obtain ⟨d, _, rfl⟩ := List.mem_map.mp hx
  by_cases hd : 0 < d
  · simpa [hd] using le_of_lt hd
  · simp [hd]

lemma losses_mem_nonneg (close : List ℚ) : ∀ x ∈ losses close, 0 ≤ x := by
  intro x hx
  obtain ⟨d, _, rfl⟩ := List.mem_map.mp hx
  by_cases hd : d < 0
  · simp only [if_pos hd]
    linarith
  · simp [hd]

lemma diffsFrom_length (l : List ℚ) : ∀ prev, (diffsFrom prev l).length = l.length := by
  induction l with
  | nil => intro prev; rfl
  | cons y ys ih => intro prev; simp [diffsFrom, ih]

lemma diffs_length (l : List ℚ) : (diffs l).length = l.length := by
  cases l with
  | nil => rfl
  | cons x xs => simp [diffs, diffsFrom_length]

lemma gains_length (close : List ℚ) : (gains close).length = close.length := by
  simp [gains, diffs_length]

lemma losses_length (close : List ℚ) : (losses close).length = close.length := by
  simp [losses, diffs_length]

/-! Claim C4. -/

/-- C4: at every index where RSI is defined, its value lies in [0, 100].
The gain and loss rolling means are nonnegative, so rs ranges over
[0, infinity) and 100 - 100/(1 + rs) stays inside the interval; the
loss = 0, gain positive case yields exactly 100. -/
theorem C4_rsi_bounded (close : List ℚ) (i : Nat) (v : ℚ)
    (h : RSI close i = some v) : 0 ≤ v ∧ v ≤ 100 := by
  unfold RSI at h
  rw [Option.bind_eq_some] at h
  obtain ⟨g, hg, h⟩ := h
  rw [Option.bind_eq_some] at h
  obtain ⟨l, hl, h⟩ := h
  have hg0 : 0 ≤ g := rollingMean_nonneg 14 (gains close) i g (gains_mem_nonneg close) hg
  have hl0 : 0 ≤ l := rollingMean_nonneg 14 (losses close) i l (losses_mem_nonneg close) hl
  by_cases hlz : l = 0
  · rw [if_pos hlz] at h
    by_cases hgz : g = 0
    · rw [if_pos hgz] at h
      exact absurd h (by simp)
    · rw [if_neg hgz] at h
      injection h with h
      rw [← h]
      constructor <;> norm_num
  · rw [if_neg hlz] at h
    injection h with h
    have hlpos : 0 < l := lt_of_le_of_ne hl0 (Ne.symm hlz)
    have hrs : 0 ≤ g / l := div_nonneg hg0 hl0
    have hden : (1 : ℚ) ≤ 1 + g / l := by linarith
    have hposfrac : 0 < (100 : ℚ) / (1 + g / l) := div_pos (by norm_num) (by linarith)
    have hlefrac : (100 : ℚ) / (1 + g / l) ≤ 100 := div_le_self (by norm_num) hden
    constructor <;> rw [← h]
    · linarith
    · linarith

/-- C4 witness: the strictly increasing series has RSI exactly 100 at the
first defined index, and the theorem instance bounds it. -/
theorem C4_witness : 0 ≤ (100 : ℚ) ∧ (100 : ℚ) ≤ 100 :=
  C4_rsi_bounded upSeries 13 100 (by
    norm_num [RSI, rollingMean, window, gains, losses, diffs, diffsFrom, upSeries])

/-! Claim C1. -/

/-- C1 counterexample: the constant series of twenty bars at price 100 is a
fully valid input of length 20, so the claim asserts RSI is defined at
index 13; but all deltas are zero, the 14-bar gain and loss means are both
zero, rs = 0/0 is NaN in pandas, and the RSI column is undefined there. -/
theorem C1_counterexample : RSI (List.replicate 20 (100 : ℚ)) 13 = none := by
  norm_num [RSI, rollingMean, window, gains, losses, diffs, diffsFrom, List.replicate]

/-- C1 amended: for every fully valid input series, each 20-bar rolling
column (MA20, BB_upper, BB_lower, Volume_MA20) is undefined at every index
below 19 and defined at every in-range index from 19 on; the RSI column is
undefined at every index below 13, and at an in-range index from 13 on it
is defined exactly when the 14-bar gain and loss rolling means are not
both zero (they are both zero exactly for locally constant closes, where
pandas computes rs = 0/0 = NaN). -/
theorem C1_amended (sq : ℚ → ℚ) (close volume : List ℚ) (i : Nat) :
    (i < 19 → MA20 close i = none ∧ BB_upper sq close i = none ∧
      BB_lower sq close i = none ∧ Volume_MA20 volume i = none) ∧
    (19 ≤ i → i < close.length →
      (MA20 close i).isSome ∧ (BB_upper sq close i).isSome ∧ (BB_lower sq close i).isSome) ∧
    (19 ≤ i → i < volume.length → (Volume_MA20 volume i).isSome) ∧
    (i < 13 → RSI close i = none) ∧
    (13 ≤ i → i < close.length →
      ∃ g l, rollingMean 14 (gains close) i = some g ∧
        rollingMean 14 (losses close) i = some l ∧
        ((RSI close i).isSome ↔ ¬(g = 0 ∧ l = 0))) := by
  refine ⟨?_, ?_, ?_, ?_, ?_⟩
  · intro hi
    have hma : MA20 close i = none :=
      rollingMean_none_of 20 close i (fun hc => by omega)
    have hvol : Volume_MA20 volume i = none :=
      rollingMean_none_of 20 volume i (fun hc => by omega)
    exact ⟨hma, by simp [BB_upper, hma], by simp [BB_lower, hma], hvol⟩
  · intro h19 hlen
    obtain ⟨m, hm⟩ := rollingMean_some_of 20 close i (by omega) hlen
    obtain ⟨v, hv⟩ := rollingVar_some_of 20 close i (by omega) hlen
    refine ⟨by simp [MA20, hm], ?_, ?_⟩
    · simp [BB_upper, MA20, BB_var, hm, hv]
    · simp [BB_lower, MA20, BB_var, hm, hv]
  · intro h19 hlen
    obtain ⟨m, hm⟩ := rollingMean_some_of 20 volume i (by omega) hlen
    simp [Volume_MA20, hm]
  · intro hi
    have hg : rollingMean 14 (gains close) i = none :=
      rollingMean_none_of 14 (gains close) i (fun hc => by omega)
    simp [RSI, hg]
  · intro h13 hlen
    obtain ⟨g, hgm⟩ := rollingMean_some_of 14 (gains close) i (by omega)
      (by rw [gains_length]; exact hlen)
    obtain ⟨l, hlm⟩ := rollingMean_some_of 14 (losses close) i (by omega)
      (by rw [losses_length]; exact hlen)
    refine ⟨g, l, hgm, hlm, ?_⟩
    by_cases hl : l = 0
    · by_cases hg : g = 0 <;> simp [RSI, hgm, hlm, hl, hg]
    · simp [RSI, hgm, hlm, hl]

/-- C1 amended witness: at index 0 every indicator column of any series is
undefined, and at index 13 of the strictly increasing series the RSI is
defined because its gain mean is nonzero. -/
theorem C1_amended_witness :
    (MA20 [] 0 = none ∧ BB_upper id [] 0 = none ∧
      BB_lower id [] 0 = none ∧ Volume_MA20 [] 0 = none) ∧
    (∃ g l, rollingMean 14 (gains upSeries) 13 = some g ∧
      rollingMean 14 (losses upSeries) 13 = some l ∧
      ((RSI upSeries 13).isSome ↔ ¬(g = 0 ∧ l = 0))) :=
  ⟨(C1_amended id [] [] 0).1 (by decide),
   (C1_amended id upSeries [] 13).2.2.2.2 (by decide) (by decide)⟩

/-! Portfolio aggregation, from create_portfolio_summary in
src/pages/crypto.py and src/pages/stocks.py (identical loop shape) and
from get_portfolio_summary in src/app.py. -/

/-- A configured holding of the pages: quantity and average purchase price
(the crypto page precomputes avg_price_eur, the stock page stores
avg_price; both loops read exactly these two numbers). -/
structure Holding where
  quantity : ℚ
  avg_price : ℚ
deriving DecidableEq

/-- One loop iteration of create_portfolio_summary: invested and current
value are accumulated only inside the branch where the symbol has fetched
data, so an unpriced holding leaves both accumulators untouched. -/
def pageStep (acc : ℚ × ℚ) (hp : Holding × Option ℚ) : ℚ × ℚ :=
  match hp.2 with
  | some price => (acc.1 + hp.1.quantity * hp.1.avg_price, acc.2 + hp.1.quantity * price)
  | none => acc

/-- The (total_invested, total_current) pair of create_portfolio_summary,
over the list of holdings paired with their optional fetched last price. -/
def create_portfolio_totals (hs : List (Holding × Option ℚ)) : ℚ × ℚ :=
  hs.foldl pageStep (0, 0)

/-- A configured coin of app.py: balance and invested amount in EUR. -/
structure AppCoin where
  balance : ℚ
  invested_eur : ℚ
deriving DecidableEq

/-- One loop iteration of get_portfolio_summary: total_invested grows
before the try block, unconditionally; total_eur grows only when the
symbol has usable price data (value = balance * price_usd * eur_rate). -/
def appStep (eur_rate : ℚ) (acc : ℚ × ℚ) (hp : AppCoin × Option ℚ) : ℚ × ℚ :=
  match hp.2 with
  | some price_usd => (acc.1 + hp.1.invested_eur, acc.2 + hp.1.balance * (price_usd * eur_rate))
  | none => (acc.1 + hp.1.invested_eur, acc.2)

/-- The (total_invested, total_eur) pair of get_portfolio_summary. -/
def get_portfolio_totals (eur_rate : ℚ) (hs : List (AppCoin × Option ℚ)) : ℚ × ℚ :=
  hs.foldl (appStep eur_rate) (0, 0)

/-- Sum of invested amounts over all holdings, as the claim states it. -/
def pageInvestedSumAll (hs : List (Holding × Option ℚ)) : ℚ :=
  (hs.map (fun hp => hp.1.quantity * hp.1.avg_price)).sum

/-- Sum of invested amounts over the successfully priced holdings only. -/
def pageInvestedSumPriced (hs : List (Holding × Option ℚ)) : ℚ :=
  (hs.map (fun hp => match hp.2 with
    | some _ => hp.1.quantity * hp.1.avg_price
    | none => 0)).sum

/-- Sum of quantity times price over the successfully priced holdings. -/
def pageValueSumPriced (hs : List (Holding × Option ℚ)) : ℚ :=
  (hs.map (fun hp => match hp.2 with
    | some price => hp.1.quantity * price
    | none => 0)).sum

/-- Sum of invested amounts over all app.py coins. -/
def appInvestedSumAll (hs : List (AppCoin × Option ℚ)) : ℚ :=
  (hs.map (fun hp => hp.1.invested_eur)).sum

/-- Sum of balance times EUR price over the successfully priced coins. -/
def appValueSumPriced (eur_rate : ℚ) (hs : List (AppCoin × Option ℚ)) : ℚ :=
  (hs.map (fun hp => match hp.2 with
    | some price_usd => hp.1.balance * (price_usd * eur_rate)
    | none => 0)).sum

lemma pageFold_acc (hs : List (Holding × Option ℚ)) : ∀ a b : ℚ,
    hs.foldl pageStep (a, b) = (a + pageInvestedSumPriced hs, b + pageValueSumPriced hs) := by
  induction hs with
  | nil => intro a b; simp [pageInvestedSumPriced, pageValueSumPriced]
  | cons hp rest ih =>
    intro a b
    obtain ⟨h, po⟩ := hp
    cases po with
    | none =>
      simp only [List.foldl_cons, pageStep, pageInvestedSumPriced, pageValueSumPriced,
        List.map_cons, List.sum_cons, ih, Prod.mk.injEq]
      constructor <;> ring
    | some p =>
      simp only [List.foldl_cons, pageStep, pageInvestedSumPriced, pageValueSumPriced,
        List.map_cons, List.sum_cons, ih, Prod.mk.injEq]
      constructor <;> ring

lemma appFold_acc (eur_rate : ℚ) (hs : List (AppCoin × Option ℚ)) : ∀ a b : ℚ,
    hs.foldl (appStep eur_rate) (a, b)
      = (a + appInvestedSumAll hs, b + appValueSumPriced eur_rate hs) := by
  induction hs with
  | nil => intro a b; simp [appInvestedSumAll, appValueSumPriced]
  | cons hp rest ih =>
    intro a b
    obtain ⟨h, po⟩ := hp
    cases po with
    | none =>
      simp only [List.foldl_cons, appStep, appInvestedSumAll, appValueSumPriced,
        List.map_cons, List.sum_cons, ih, Prod.mk.injEq]
      constructor <;> ring
    | some p =>
      simp only [List.foldl_cons, appStep, appInvestedSumAll, appValueSumPriced,
        List.map_cons, List.sum_cons, ih, Prod.mk.injEq]
      constructor <;> ring

/-! Claim C2. -/

/-- C2 counterexample: one holding with quantity 1 and average price 100
whose price fetch failed. The claim says total invested is the sum of all
invested amounts (here 100) regardless of fetch success, but the pages
version of create_portfolio_summary accumulates invested only inside the
priced branch and reports 0. -/
theorem C2_counterexample :
    (create_portfolio_totals [(⟨1, 100⟩, none)]).1
      ≠ pageInvestedSumAll [(⟨1, 100⟩, none)] := by
  norm_num [create_portfolio_totals, pageStep, pageInvestedSumAll]

/-- C2 amended: at get_portfolio_summary in app.py the totals are as the
claim states them: total invested sums every invested amount regardless of
fetch success, and total current value sums balance times price over the
successfully priced holdings. At the pages create_portfolio_summary both
totals instead range only over the successfully priced holdings: a holding
with a failed price fetch is omitted from total invested as well. -/
theorem C2_amended (eur_rate : ℚ) (appHs : List (AppCoin × Option ℚ))
    (pageHs : List (Holding × Option ℚ)) :
    (get_portfolio_totals eur_rate appHs).1 = appInvestedSumAll appHs ∧
    (get_portfolio_totals eur_rate appHs).2 = appValueSumPriced eur_rate appHs ∧
    (create_portfolio_totals pageHs).1 = pageInvestedSumPriced pageHs ∧
    (create_portfolio_totals pageHs).2 = pageValueSumPriced pageHs := by
  have happ := appFold_acc eur_rate appHs 0 0
  have hpage := pageFold_acc pageHs 0 0
  rw [get_portfolio_totals, happ, create_portfolio_totals, hpage]
  norm_num

/-! Percentage computations of the summaries. -/

/-- A numpy float64 value: a finite number or one of the non-finite
floats. The last price read from the Close column with Series.iloc is a
numpy float64, so arithmetic on it follows IEEE semantics: dividing by
zero emits a RuntimeWarning and produces inf, -inf or nan, it does not
raise ZeroDivisionError. -/
inductive Float64 where
  | finite : ℚ → Float64
  | inf : Float64
  | neginf : Float64
  | nan : Float64
deriving DecidableEq

/-- numpy float64 division: a zero denominator yields inf for a positive
numerator, -inf for a negative one and nan for 0/0, without raising. -/
def npdiv (a b : ℚ) : Float64 :=
  if b = 0 then
    (if 0 < a then Float64.inf else if a < 0 then Float64.neginf else Float64.nan)
  else Float64.finite (a / b)

/-- Multiplication of a float64 by the positive constant 100: finite
values scale, inf, -inf and nan are preserved. -/
def mul100 : Float64 → Float64
  | Float64.finite x => Float64.finite (x * 100)
  | Float64.inf => Float64.inf
  | Float64.neginf => Float64.neginf
  | Float64.nan => Float64.nan

/-- The per-holding change_pct of the pages create_portfolio_summary:
((current_price - avg_price) / avg_price) * 100 with no zero guard, over
numpy float64 values. -/
def page_change_pct (avg_price current_price : ℚ) : Float64 :=
  mul100 (npdiv (current_price - avg_price) avg_price)

/-- The per-holding pair (invested, change_pct) built by the pages loop. -/
def page_holding_row (quantity avg_price current_price : ℚ) : ℚ × Float64 :=
  (quantity * avg_price, page_change_pct avg_price current_price)

/-- The per-coin profit_percentage of app.py: guarded by invested > 0 and
defaulting to 0 otherwise. -/
def profit_percentage (invested value_eur : ℚ) : ℚ :=
  if 0 < invested then (value_eur - invested) / invested * 100 else 0

/-- The total return percentage used at all three summary call sites:
guarded by total_invested > 0 and defaulting to 0 otherwise. -/
def total_change_pct (total_invested total_current : ℚ) : ℚ :=
  if 0 < total_invested then (total_current - total_invested) / total_invested * 100 else 0

/-! Claim C3. -/

/-- C3 counterexample: a pages holding with quantity 0, average price 1 and
fetched price 2 has invested amount 0, yet its per-holding percentage is
100, not the 0 the claim requires; the computation divides by avg_price
with no zero check at all. -/
theorem C3_counterexample :
    (page_holding_row 0 1 2).1 = 0 ∧ (page_holding_row 0 1 2).2 ≠ Float64.finite 0 := by
  constructor
  · norm_num [page_holding_row]
  · norm_num [page_holding_row, page_change_pct, npdiv, mul100]

/-- C3 amended: the total return percentage at all three call sites and the
per-coin profit percentage in app.py are guarded by explicit zero checks
and default to 0 when the relevant invested amount is 0; the per-holding
change percentage of the pages create_portfolio_summary is unguarded: for
a nonzero average price it returns the plain formula value with no special
casing of a zero invested amount, and for a zero average price the
unguarded float64 division yields a non-finite value (inf, -inf or nan,
with a RuntimeWarning but no exception), never the claimed 0. -/
theorem C3_amended :
    (∀ tc : ℚ, total_change_pct 0 tc = 0) ∧
    (∀ v : ℚ, profit_percentage 0 v = 0) ∧
    (∀ p : ℚ, page_change_pct 0 p
      = (if 0 < p then Float64.inf else if p < 0 then Float64.neginf else Float64.nan)) ∧
    (∀ a p : ℚ, a ≠ 0 → page_change_pct a p = Float64.finite ((p - a) / a * 100)) := by
  refine ⟨?_, ?_, ?_, ?_⟩
  · intro tc; simp [total_change_pct]
  · intro v; simp [profit_percentage]
  · intro p
    simp only [page_change_pct, npdiv, sub_zero, if_pos rfl]
    split_ifs <;> rfl
  · intro a p ha; simp [page_change_pct, npdiv, mul100, ha]

/-- C3 amended witness: concrete instances of the guarded defaults, of the
non-finite result of the unguarded division at a zero average price, and
of the plain formula value at a nonzero one. -/
theorem C3_amended_witness :
    total_change_pct 0 5 = 0 ∧ page_change_pct 0 7 = Float64.inf ∧
      page_change_pct 1 3 = Float64.finite ((3 - 1) / 1 * 100) :=
  ⟨C3_amended.1 5, by simpa using C3_amended.2.2.1 7,
    C3_amended.2.2.2 1 3 one_ne_zero⟩

/-! Currency normalization, from StockAnalyzer in src/stock_analyzer.py. -/

/-- The exchange-rate dictionary with keys USD and GBP. -/
structure Rates where
  USD : ℚ
  GBP : ℚ
deriving DecidableEq

/-- One OHLCV row of the fetched DataFrame. -/
structure Bar where
  Open : ℚ
  High : ℚ
  Low : ℚ
  Close : ℚ
  Volume : ℚ
deriving DecidableEq

instance : Inhabited Bar := ⟨⟨0, 0, 0, 0, 0⟩⟩

/-- One OHLCV row after _convert_to_eur: prices scaled, volume integral. -/
structure BarEUR where
  Open : ℚ
  High : ℚ
  Low : ℚ
  Close : ℚ
  Volume : ℤ
deriving DecidableEq

instance : Inhabited BarEUR := ⟨⟨0, 0, 0, 0, 0⟩⟩

/-- .astype(int) on a float column: truncation toward zero. -/
def astypeInt (q : ℚ) : ℤ := Int.tdiv q.num (q.den : ℤ)

/-- Boolean test that the first list is an initial segment of the second. -/
def listStartsWith : List Char → List Char → Bool
  | [], _ => true
  | _ :: _, [] => false
  | p :: ps, c :: cs => p == c && listStartsWith ps cs

/-- Python str.endswith, over the underlying character lists. -/
def endsWithL (s suff : String) : Bool :=
  listStartsWith suff.data.reverse s.data.reverse

/-- Rate selection of _convert_to_eur: GBP for an LSE suffix .L, USD else. -/
def convertRate (rates : Rates) (symbol : String) : ℚ :=
  if endsWithL symbol ".L" then rates.GBP else rates.USD

/-- The per-row body of _convert_to_eur: scale each price column by the
selected rate, coerce the volume to integer units. -/
def convertBar (rate : ℚ) (b : Bar) : BarEUR :=
  ⟨b.Open * rate, b.High * rate, b.Low * rate, b.Close * rate, astypeInt b.Volume⟩

/-- _convert_to_eur on the copied DataFrame; the source copies df before
mutating, so the pure map is the faithful translation and the original
table of the caller is untouched by construction. -/
def convert_to_eur (rates : Rates) (symbol : String) (df : List Bar) : List BarEUR :=
  df.map (convertBar (convertRate rates symbol))

/-! Claim C5. -/

/-- C5: _convert_to_eur is a pure linear scaling: every row of the result
has each of Open, High, Low, Close equal to the raw value times exactly one
rate, the GBP rate when the symbol ends with .L and the USD rate otherwise,
and Volume coerced to an integer; the length is preserved and the input
list is not modified (the embedding is a pure map over the copied table). -/
theorem C5_convert_linear (rates : Rates) (symbol : String) (df : List Bar) (i : Nat)
    (h : i < df.length) :
    (convert_to_eur rates symbol df).length = df.length ∧
    ((convert_to_eur rates symbol df).getD i default).Open
        = ((df.getD i default).Open) * (if endsWithL symbol ".L" then rates.GBP else rates.USD) ∧
    ((convert_to_eur rates symbol df).getD i default).High
        = ((df.getD i default).High) * (if endsWithL symbol ".L" then rates.GBP else rates.USD) ∧
    ((convert_to_eur rates symbol df).getD i default).Low
        = ((df.getD i default).Low) * (if endsWithL symbol ".L" then rates.GBP else rates.USD) ∧
    ((convert_to_eur rates symbol df).getD i default).Close
        = ((df.getD i default).Close) * (if endsWithL symbol ".L" then rates.GBP else rates.USD) ∧
    ((convert_to_eur rates symbol df).getD i default).Volume
        = astypeInt ((df.getD i default).Volume) := by
  obtain ⟨b, hb⟩ : ∃ b, df[i]? = some b := ⟨df[i], List.getElem?_eq_getElem h⟩
  have hmap : (convert_to_eur rates symbol df)[i]?
      = some (convertBar (convertRate rates symbol) b) := by
    rw [convert_to_eur, List.getElem?_map, hb]
    rfl
  refine ⟨by simp [convert_to_eur], ?_, ?_, ?_, ?_, ?_⟩ <;>
    rw [List.getD_eq_getElem?_getD, List.getD_eq_getElem?_getD, hmap, hb] <;>
    simp [convertBar, convertRate]

/-- C5 witness: a one-row table for an LSE symbol is scaled by the GBP
rate in its Close column. -/
theorem C5_witness :
    ((convert_to_eur ⟨2, 3⟩ "X.L" [⟨1, 2, 3, 4, 5⟩]).getD 0 default).Close = 4 * 3 := by
  have hc := (C5_convert_linear ⟨2, 3⟩ "X.L" [⟨1, 2, 3, 4, 5⟩] 0 (by decide)).2.2.2.2.1
  have he : endsWithL "X.L" ".L" = true := by decide
  simpa [he] using hc

/-! Exchange-rate fetching, from _get_exchange_rates. -/

/-- Outcome of one HTTP request: an exception during the request or JSON
parse, or a parsed response. -/
inductive Fetch (α : Type) where
  | raises : Fetch α
  | ok : α → Fetch α

/-- Parsed response of the primary provider: HTTP status, the success flag
read with data.get(success, False), and the USD and GBP entries of the
rates object (none models a missing key). -/
structure PrimaryResp where
  status : Nat
  success : Bool
  usd : Option ℚ
  gbp : Option ℚ

/-- Parsed response of the fallback provider, which has no success flag. -/
structure FallbackResp where
  status : Nat
  usd : Option ℚ
  gbp : Option ℚ

/-- A rate entry unusable by 1/rate: missing key (KeyError) or zero rate
(ZeroDivisionError). -/
def badRate : Option ℚ → Bool
  | none => true
  | some u => decide (u = 0)

/-- Evaluation of the dict {USD: 1/rates[USD], GBP: 1/rates[GBP]}: raises
on a missing key or a zero rate, otherwise builds the inverted rates. -/
def invRates (usd gbp : Option ℚ) : Except Unit Rates :=
  match usd, gbp with
  | some u, some g =>
      if u = 0 ∨ g = 0 then Except.error () else Except.ok ⟨1 / u, 1 / g⟩
  | _, _ => Except.error ()

/-- The fallback half of the try block: on status 200 evaluate the rate
inversion (which may raise), otherwise fall off the end of the try block
with no return value. -/
def tryFallback (f : Fetch FallbackResp) : Except Unit (Option Rates) :=
  match f with
  | Fetch.raises => Except.error ()
  | Fetch.ok r =>
      if r.status = 200 then (invRates r.usd r.gbp).map some
      else Except.ok none

/-- The whole try block of _get_exchange_rates: primary provider first
(status 200 and success flag required), then the fallback provider. -/
def tryBody (p : Fetch PrimaryResp) (f : Fetch FallbackResp) : Except Unit (Option Rates) :=
  match p with
  | Fetch.raises => Except.error ()
  | Fetch.ok r =>
      if r.status = 200 ∧ r.success = true then (invRates r.usd r.gbp).map some
      else tryFallback f

/-- The hardcoded constant rates returned when every provider fails. -/
def FALLBACK_RATES : Rates := ⟨0.9132, 0.8561⟩

/-- _get_exchange_rates: the try block with its catch-all handler; both the
caught-exception path and the fell-off-the-end path return the hardcoded
rates, so the function is total and never raises to its caller. -/
def get_exchange_rates (p : Fetch PrimaryResp) (f : Fetch FallbackResp) : Rates :=
  match tryBody p f with
  | Except.ok (some r) => r
  | Except.ok none => FALLBACK_RATES
  | Except.error _ => FALLBACK_RATES

/-- Failure of the primary provider: exception, non-200 status, success
flag absent or false, or an unusable rate entry. -/
def primary_fails : Fetch PrimaryResp → Bool
  | Fetch.raises => true
  | Fetch.ok r => !(r.status == 200) || !r.success || badRate r.usd || badRate r.gbp

/-- Failure of the fallback provider: exception, non-200 status, or an
unusable rate entry. -/
def fallback_fails : Fetch FallbackResp → Bool
  | Fetch.raises => true
  | Fetch.ok r => !(r.status == 200) || badRate r.usd || badRate r.gbp

lemma invRates_error_of_bad (usd gbp : Option ℚ)
    (h : badRate usd = true ∨ badRate gbp = true) :
    invRates usd gbp = Except.error () := by
  cases usd with
  | none => rfl
  | some u =>
    cases gbp with
    | none => rfl
    | some g =>
      have hz : u = 0 ∨ g = 0 := by
        rcases h with h | h <;> simp [badRate] at h
        · exact Or.inl h
        · exact Or.inr h
      simp [invRates, hz]

/-! Claim C6. -/

/-- C6: when both the primary and the fallback provider fail (exception,
non-200 status, or unsuccessful or malformed response), _get_exchange_rates
returns the hardcoded rates USD = 0.9132, GBP = 0.8561; the function is
total by construction, so no exception reaches the caller. -/
theorem C6_hardcoded_fallback (p : Fetch PrimaryResp) (f : Fetch FallbackResp)
    (hp : primary_fails p = true) (hf : fallback_fails f = true) :
    get_exchange_rates p f = FALLBACK_RATES := by
  have key : tryBody p f = Except.error () ∨ tryBody p f = Except.ok none := by
    cases p with
    | raises => exact Or.inl rfl
    | ok r =>
      show (if r.status = 200 ∧ r.success = true
          then (invRates r.usd r.gbp).map some else tryFallback f) = Except.error () ∨
        (if r.status = 200 ∧ r.success = true
          then (invRates r.usd r.gbp).map some else tryFallback f) = Except.ok none
      by_cases hs : r.status = 200 ∧ r.success = true
      · rw [if_pos hs]
        have hbad : badRate r.usd = true ∨ badRate r.gbp = true := by
          simpa [primary_fails, hs.1, hs.2] using hp
        rw [invRates_error_of_bad _ _ hbad]
        exact Or.inl rfl
      · rw [if_neg hs]
        cases f with
        | raises => exact Or.inl rfl
        | ok r2 =>
          show (if r2.status = 200
              then (invRates r2.usd r2.gbp).map some else Except.ok none) = Except.error () ∨
            (if r2.status = 200
              then (invRates r2.usd r2.gbp).map some else Except.ok none) = Except.ok none
          by_cases h2 : r2.status = 200
          · rw [if_pos h2]
            have hbad : badRate r2.usd = true ∨ badRate r2.gbp = true := by
              simpa [fallback_fails, h2] using hf
            rw [invRates_error_of_bad _ _ hbad]
            exact Or.inl rfl
          · rw [if_neg h2]
            exact Or.inr rfl
  rcases key with key | key <;> unfold get_exchange_rates <;> rw [key]

/-- C6 witness: both requests raise, and the hardcoded rates come back. -/
theorem C6_witness : get_exchange_rates Fetch.raises Fetch.raises = FALLBACK_RATES :=
  C6_hardcoded_fallback Fetch.raises Fetch.raises rfl rfl

/-! Exchange-rate cache refresh, from _update_exchange_rates. -/

/-- The mutable analyzer fields touched by _update_exchange_rates. The
Python truthiness test not self.exchange_rates is none-ness here, since
_get_exchange_rates always returns a two-key dictionary. -/
structure AnalyzerState where
  exchange_rates : Option Rates
  last_rate_update : ℚ
deriving DecidableEq

/-- _update_exchange_rates: refresh the cache from the providers when it is
unset or older than 3600 seconds, otherwise leave the state untouched;
fetched is the value _get_exchange_rates would return now. -/
def update_exchange_rates (fetched : Rates) (current_time : ℚ) (s : AnalyzerState) :
    AnalyzerState :=
  if s.exchange_rates = none ∨ 3600 < current_time - s.last_rate_update then
    ⟨some fetched, current_time⟩
  else s

/-! Claim C9. -/

/-- C9: the cache is refreshed exactly when it is unset or more than one
hour (3600 seconds) old: in that case both fields are overwritten with the
fresh rates and the current time, and otherwise the call returns the state
unchanged, so exchange_rates and last_rate_update keep their values. -/
theorem C9_cache_ttl (fetched : Rates) (t : ℚ) (s : AnalyzerState) :
    ((s.exchange_rates = none ∨ 3600 < t - s.last_rate_update) →
      update_exchange_rates fetched t s = ⟨some fetched, t⟩) ∧
    (s.exchange_rates ≠ none → t - s.last_rate_update ≤ 3600 →
      update_exchange_rates fetched t s = s) := by
  unfold update_exchange_rates
  by_cases hc : s.exchange_rates = none ∨ 3600 < t - s.last_rate_update
  · rw [if_pos hc]
    exact ⟨fun _ => rfl, fun hne hle => by
      rcases hc with hc | hc
      · exact absurd hc hne
      · linarith⟩
  · rw [if_neg hc]
    exact ⟨fun h => absurd h hc, fun _ _ => rfl⟩

/-- C9 witness: a one-second-old populated cache is left unchanged. -/
theorem C9_witness :
    update_exchange_rates ⟨2, 2⟩ 1 ⟨some ⟨1, 1⟩, 0⟩ = ⟨some ⟨1, 1⟩, 0⟩ :=
  (C9_cache_ttl ⟨2, 2⟩ 1 ⟨some ⟨1, 1⟩, 0⟩).2 (by decide) (by norm_num)

/-! Price prediction entry guard, from predict_price. -/

/-- predict_price up to the model fit: the fetched 2-year daily close
history is a list of optional closes (none is a NaN cell); an empty
history, fewer than 30 rows, or fewer than 30 rows after dropna all yield
none; otherwise the Prophet pipeline runs, abstracted as the parameter
fit applied to the cleaned series. -/
def predict_price (fit : List ℚ → ℚ) (historical : List (Option ℚ)) : Option ℚ :=
  if historical.isEmpty then none
  else if historical.length < 30 then none
  else
    if (historical.filterMap id).length < 30 then none
    else some (fit (historical.filterMap id))

/-! Claim C7. -/

/-- C7: whenever the fetched historical close series is empty or has fewer
than 30 valid null-free observations after cleaning, predict_price returns
none rather than fitting a model; the function is total, so nothing
propagates to the rest of the pipeline. -/
theorem C7_no_forecast (fit : List ℚ → ℚ) (historical : List (Option ℚ))
    (h : historical = [] ∨ (historical.filterMap id).length < 30) :
    predict_price fit historical = none := by
  rcases h with h | h
  · subst h
    rfl
  · unfold predict_price
    split_ifs <;> rfl

/-- C7 witness: the empty history yields no forecast. -/
theorem C7_witness : predict_price (fun _ => 0) [] = none :=
  C7_no_forecast (fun _ => 0) [] (Or.inl rfl)

/-! Claim C8. -/

/-- C8: wherever MA20, BB_upper and BB_lower are all defined, the band
ordering BB_upper at least MA20 at least BB_lower holds, because the bands
are the moving average plus and minus twice the square root of the rolling
variance, the variance is nonnegative, and the square root function is
nonnegative on nonnegative inputs. -/
theorem C8_bollinger_order (sq : ℚ → ℚ) (hsq : ∀ x, 0 ≤ x → 0 ≤ sq x)
    (close : List ℚ) (i : Nat) (u m l : ℚ)
    (hu : BB_upper sq close i = some u) (hm : MA20 close i = some m)
    (hl : BB_lower sq close i = some l) : l ≤ m ∧ m ≤ u := by
  unfold BB_upper at hu
  unfold BB_lower at hl
  rw [hm] at hu hl
  rw [Option.some_bind] at hu hl
  rw [Option.map_eq_some'] at hu hl
  obtain ⟨v, hv, hvu⟩ := hu
  obtain ⟨v2, hv2, hvl⟩ := hl
  rw [hv] at hv2
  injection hv2 with hv2
  subst hv2
  have hvar : 0 ≤ v := rollingVar_nonneg 20 close i v (by omega) hv
  have hs : 0 ≤ sq v := hsq v hvar
  constructor
  · rw [← hvl]
    linarith
  · rw [← hvu]
    linarith

/-- C8 witness: twenty constant bars at price 1 give MA20 = 1 and both
bands equal to 1 at index 19, and the theorem orders them. -/
theorem C8_witness : (1 : ℚ) ≤ 1 ∧ (1 : ℚ) ≤ 1 :=
  C8_bollinger_order id (fun x hx => hx) (List.replicate 20 1) 19 1 1 1
    (by norm_num [BB_upper, MA20, BB_var, rollingMean, rollingVar, window, List.replicate])
    (by norm_num [MA20, rollingMean, window, List.replicate])
    (by norm_num [BB_lower, MA20, BB_var, rollingMean, rollingVar, window, List.replicate])

/-! Ticker-key computation, from CryptoAnalyzer. -/

/-- Boolean test that pat occurs as a contiguous subsequence of the list,
the Python in operator on strings. -/
def listContainsSeq (pat : List Char) : List Char → Bool
  | [] => listStartsWith pat []
  | c :: cs => listStartsWith pat (c :: cs) || listContainsSeq pat cs

/-- The Python test: -USD in symbol. -/
def containsDashUSD (s : String) : Bool := listContainsSeq "-USD".data s.data

/-- The Python test: symbol.endswith(USD). -/
def endsWithUSD (s : String) : Bool := endsWithL s "USD"

/-- The ticker key built by get_crypto_data: append -USD unless the symbol
already contains -USD or ends with USD. -/
def ticker_key_fetch (symbol : String) : String :=
  if !containsDashUSD symbol && !endsWithUSD symbol then symbol ++ "-USD" else symbol

/-- The ticker key built by predict_price: append -USD unless the symbol
already contains -USD; the endswith test of get_crypto_data is absent. -/
def ticker_key_predict (symbol : String) : String :=
  if !containsDashUSD symbol then symbol ++ "-USD" else symbol

/-! Claim C10. -/

/-- C10 counterexample: for the symbol BTCUSD, which ends with USD but does
not contain -USD, get_crypto_data keeps the symbol unchanged while
predict_price appends -USD, so the two provider keys differ. -/
theorem C10_counterexample : ticker_key_fetch "BTCUSD" ≠ ticker_key_predict "BTCUSD" := by
  decide

/-- C10 amended: the two ticker keys agree for every symbol that contains
-USD or does not end with USD; they differ exactly on symbols such as
BTCUSD that end with USD without containing -USD. -/
theorem C10_amended (symbol : String)
    (h : containsDashUSD symbol = true ∨ endsWithUSD symbol = false) :
    ticker_key_fetch symbol = ticker_key_predict symbol := by
  unfold ticker_key_fetch ticker_key_predict
  rcases h with h | h
  · simp [h]
  · rw [h]
    cases hc : containsDashUSD symbol <;> simp [hc]

/-- C10 amended witness: a plain symbol gets -USD appended by both. -/
theorem C10_amended_witness : ticker_key_fetch "BTC" = ticker_key_predict "BTC" :=
  C10_amended "BTC" (Or.inr (by decide))

end Analyzer
